import Mathlib

/-!
# JWKS catalog crawler: extraction and fan-out publishing

A shallow embedding of `main.go`.  The program reads three environment
variables, fetches a YAML catalog over HTTP, collects the non-empty
`openid-configuration` and `jwks_uri` fields of every service, and publishes one
`CrawlRequest` per collected URL to a Pub/Sub topic.

The libraries the program calls (`os`, `net/http`, `io`, `yaml`, `json`,
`pubsub`, `runtime/debug`) are not part of the program; their answers are the
fields of `Env`.  What the program does to the outside is recorded in a `World`:
the lines it logs and the library calls it makes, both in program order.
-/

namespace JwksCrawler

/-! ## Data model (`main.go`, lines 20-36) -/

/-- Service represents a JWKS service. -/
structure Service where
  Id : String
  Name : String
  OpenIDConfiguration : String
  JWKSURI : String
  deriving DecidableEq, Repr

/-- Data holds the list of services. -/
structure Data where
  Services : List Service
  deriving DecidableEq, Repr

/-- CrawlRequest is the payload sent to Pub/Sub. -/
structure CrawlRequest where
  URL : String
  deriving DecidableEq, Repr

/-- The part of `pubsub.Message` the program fills in. -/
structure Message where
  Data : String
  deriving DecidableEq, Repr

/-- The part of `http.Response` the program looks at: the status code, and what
`io.ReadAll(resp.Body)` gives when it is called. -/
structure Response where
  StatusCode : Int
  Body : Except String (List UInt8)

/-! ## The outside world -/

/-- The answers of the libraries the program calls. -/
structure Env where
  /-- The function `os.Getenv`: the value of a variable, `""` when it is not set. -/
  getenv : String → String
  /-- The function `debug.ReadBuildInfo`: `bi.Main.Version` when `ok`. -/
  buildInfo : Option String
  /-- The function `http.Get`. -/
  httpGet : String → Except String Response
  /-- The function `yaml.Unmarshal` into a `Data`. -/
  yamlUnmarshal : List UInt8 → Except String Data
  /-- The function `pubsub.NewClient` for a project id. -/
  newClient : String → Except String Unit
  /-- The function `json.Marshal` of a `CrawlRequest`. -/
  jsonMarshal : CrawlRequest → Except String String
  /-- The call `topic.Publish(ctx, msg)` followed by `result.Get(ctx)` for the target at
  a position of the URL list: the message id, or the error. -/
  publishResult : Nat → Message → Except String String

/-- One line of the log, by the call that writes it. -/
inductive LogEntry where
  /-- Line 49. -/
  | version (v : String)
  /-- Line 57, `log.Fatal`. -/
  | missingEnv
  /-- Line 63, `log.Fatalf`. -/
  | loadFailed (err : String)
  /-- Line 79, `log.Fatalf`. -/
  | publishRequestsFailed (err : String)
  /-- Line 127. -/
  | skipped (url err : String)
  /-- Line 138. -/
  | publishFailed (url err : String)
  /-- Line 142. -/
  | published (url id : String)
  deriving DecidableEq, Repr

/-- The text of a log line: the format string of its call, filled in. -/
def LogEntry.render : LogEntry → String
  | .version v => "JWKS Catalog Crawler version: " ++ v
  | .missingEnv =>
      "Missing required environment variables: YAML_CATALOG_URL, GCP_PROJECT_ID, PUBSUB_TOPIC_NAME"
  | .loadFailed err => "Failed to load YAML file: " ++ err
  | .publishRequestsFailed err => "Failed to publish crawl requests: " ++ err
  | .skipped url err => "Skipping URL " ++ url ++ " due to JSON marshalling error: " ++ err
  | .publishFailed url err => "Failed to publish message for URL " ++ url ++ ": " ++ err
  | .published url id => "Published crawl request for " ++ url ++ " with message ID: " ++ id

/-- A library call with an effect outside the program. -/
inductive Event where
  | httpGet (url : String)
  | readAll
  | yamlUnmarshal (data : List UInt8)
  | bodyClose
  | newClient (projectID : String)
  | topic (topicName : String)
  /-- The request built at lines 121-123, handed to `json.Marshal`. -/
  | jsonMarshal (req : CrawlRequest)
  /-- The call `topic.Publish(ctx, msg)` in the iteration for `url`. -/
  | publish (url : String) (msg : Message)
  | topicStop
  | clientClose
  deriving DecidableEq, Repr

/-- What the program has logged and called so far. -/
structure World where
  log : List LogEntry
  trace : List Event
  deriving DecidableEq, Repr

/-- Write one line to the log. -/
def World.logPrintf (w : World) (e : LogEntry) : World :=
  { w with log := w.log ++ [e] }

/-- Record one library call. -/
def World.call (w : World) (ev : Event) : World :=
  { w with trace := w.trace ++ [ev] }

/-! ## The program -/

/-- The constant `http.StatusOK`. -/
def StatusOK : Int := 200

/-- The error of line 92. -/
def statusCodeError (code : Int) : String :=
  "failed to fetch YAML: status code " ++ toString code

/-- fetchAndParseYAML retrieves and parses the JWKS catalog YAML file
(lines 84-106).  `resp.Body.Close()` is deferred once `http.Get` has
succeeded, so it is the last call on every later path. -/
def fetchAndParseYAML (env : Env) (url : String) (w : World) : Except String Data × World :=
  let w := w.call (.httpGet url)
  match env.httpGet url with
  | .error err => (.error ("failed to fetch YAML file: " ++ err), w)
  | .ok resp =>
    if resp.StatusCode ≠ StatusOK then
      (.error (statusCodeError resp.StatusCode), w.call .bodyClose)
    else
      let w := w.call .readAll
      match resp.Body with
      | .error err => (.error ("failed to read YAML content: " ++ err), w.call .bodyClose)
      | .ok data =>
        let w := w.call (.yamlUnmarshal data)
        match env.yamlUnmarshal data with
        | .error err => (.error ("failed to parse YAML: " ++ err), w.call .bodyClose)
        | .ok config => (.ok config, w.call .bodyClose)

/-- The loop of lines 66-75: the array of all of the URLs, both OIDC and JWKS. -/
def extractURLs (services : List Service) : List String :=
  services.foldl
    (fun urls service =>
      let urls :=
        if service.OpenIDConfiguration ≠ "" then urls ++ [service.OpenIDConfiguration] else urls
      if service.JWKSURI ≠ "" then urls ++ [service.JWKSURI] else urls)
    []

/-- The loop of lines 120-143, from the target at position `i` on. -/
def publishLoop (env : Env) : Nat → List String → World → World
  | _, [], w => w
  | i, url :: rest, w =>
    let req : CrawlRequest := ⟨url⟩
    let w := w.call (.jsonMarshal req)
    match env.jsonMarshal req with
    | .error err => publishLoop env (i + 1) rest (w.logPrintf (.skipped url err))
    | .ok msgData =>
      let msg : Message := ⟨msgData⟩
      let w := w.call (.publish url msg)
      match env.publishResult i msg with
      | .error err => publishLoop env (i + 1) rest (w.logPrintf (.publishFailed url err))
      | .ok id => publishLoop env (i + 1) rest (w.logPrintf (.published url id))

/-- publishCrawlRequests sends each JWKS URL as a crawl request to Pub/Sub
(lines 109-146).  The result is the returned error, `none` for `nil`.  The
deferred `topic.Stop()` and `client.Close()` run in that order on return. -/
def publishCrawlRequests (env : Env) (projectID topicName : String) (urls : List String)
    (w : World) : Option String × World :=
  let w := w.call (.newClient projectID)
  match env.newClient projectID with
  | .error err => (some ("failed to create Pub/Sub client: " ++ err), w)
  | .ok _ =>
    let w := w.call (.topic topicName)
    let w := publishLoop env 0 urls w
    (none, (w.call .topicStop).call .clientClose)

/-- Lines 40-46: the version logged, from the build info when the build system
set none. -/
def resolveVersion (env : Env) (Version : String) : String :=
  if Version = "dev" ∨ Version = "" then
    match env.buildInfo with
    | some v => if v ≠ "" ∧ v ≠ "(devel)" then v else Version
    | none => Version
  else Version

/-- The function `main` (lines 38-81): the exit status of the process and the
world it leaves.  `log.Fatal` and `log.Fatalf` write their line and exit with
status 1; returning from `main` exits with status 0. -/
def main (env : Env) (Version : String) : Nat × World :=
  let w : World := (World.mk [] []).logPrintf (.version (resolveVersion env Version))
  let yamlURL := env.getenv "YAML_CATALOG_URL"
  let projectID := env.getenv "GCP_PROJECT_ID"
  let topicName := env.getenv "PUBSUB_TOPIC_NAME"
  if yamlURL = "" ∨ projectID = "" ∨ topicName = "" then
    (1, w.logPrintf .missingEnv)
  else
    match fetchAndParseYAML env yamlURL w with
    | (.error err, w) => (1, w.logPrintf (.loadFailed err))
    | (.ok data, w) =>
      let urls := extractURLs data.Services
      match publishCrawlRequests env projectID topicName urls w with
      | (some err, w) => (1, w.logPrintf (.publishRequestsFailed err))
      | (none, w) => (0, w)

/-! ## Definitions used to state the properties -/

/-- What one service contributes: its OpenID configuration URL when that is
non-empty, then its JWKS URI when that is non-empty. -/
def serviceURLs (s : Service) : List String :=
  (if s.OpenIDConfiguration = "" then [] else [s.OpenIDConfiguration]) ++
    (if s.JWKSURI = "" then [] else [s.JWKSURI])

/-- How many of the two URL fields of the services hold the string `u`. -/
def fieldCount (u : String) (services : List Service) : Nat :=
  (services.map fun s =>
    (if s.OpenIDConfiguration = u then 1 else 0) + (if s.JWKSURI = u then 1 else 0)).sum

/-- The line the iteration for the target `url` at position `i` logs. -/
def targetLog (env : Env) (i : Nat) (url : String) : LogEntry :=
  match env.jsonMarshal ⟨url⟩ with
  | .error err => .skipped url err
  | .ok msgData =>
    match env.publishResult i ⟨msgData⟩ with
    | .error err => .publishFailed url err
    | .ok id => .published url id

/-- The library calls the iteration for the target `url` makes. -/
def targetCalls (env : Env) (url : String) : List Event :=
  match env.jsonMarshal ⟨url⟩ with
  | .error _ => [.jsonMarshal ⟨url⟩]
  | .ok msgData => [.jsonMarshal ⟨url⟩, .publish url ⟨msgData⟩]

/-- The lines the iterations for the targets from position `i` on log. -/
def loopLog (env : Env) : Nat → List String → List LogEntry
  | _, [] => []
  | i, url :: rest => targetLog env i url :: loopLog env (i + 1) rest

/-- The URLs for which `topic.Publish` was called, in call order. -/
def attemptedURLs (trace : List Event) : List String :=
  trace.filterMap fun
    | .publish url _ => some url
    | _ => none

/-- The requests that were constructed, in order. -/
def constructedRequests (trace : List Event) : List CrawlRequest :=
  trace.filterMap fun
    | .jsonMarshal req => some req
    | _ => none

/-- A line that reports a failed target. -/
def LogEntry.isFailure : LogEntry → Bool
  | .skipped _ _ => true
  | .publishFailed _ _ => true
  | _ => false

/-- A line that reports an acknowledged target. -/
def LogEntry.isSuccess : LogEntry → Bool
  | .published _ _ => true
  | _ => false

/-- The variables are set, the catalog at `YAML_CATALOG_URL` is answered with
status 200, its body is read as `body` and decodes to `data`. -/
def CatalogLoads (env : Env) (body : List UInt8) (data : Data) : Prop :=
  env.getenv "YAML_CATALOG_URL" ≠ "" ∧ env.getenv "GCP_PROJECT_ID" ≠ "" ∧
    env.getenv "PUBSUB_TOPIC_NAME" ≠ "" ∧
    (∃ resp, env.httpGet (env.getenv "YAML_CATALOG_URL") = .ok resp ∧
      resp.StatusCode = StatusOK ∧ resp.Body = .ok body) ∧
    env.yamlUnmarshal body = .ok data

/-- The Pub/Sub client for the configured project is created. -/
def ClientCreated (env : Env) : Prop :=
  env.newClient (env.getenv "GCP_PROJECT_ID") = .ok ()

/-! ## Example environments -/

/-- The compact encoding of a request whose URL needs no escaping. -/
def exampleMarshal (req : CrawlRequest) : Except String String :=
  .ok ("\x7b\"url\":\"" ++ req.URL ++ "\"\x7d")

/-- The environment variables of the examples. -/
def exampleGetenv (name : String) : String :=
  if name = "YAML_CATALOG_URL" then "https://catalog.example/jwks.yaml"
  else if name = "GCP_PROJECT_ID" then "project"
  else if name = "PUBSUB_TOPIC_NAME" then "crawl"
  else ""

/-- An environment in which the catalog request is answered with `status`, the
body decodes to `data`, the client is created, and the publish of the target at
position `i` gets the answer `results i`. -/
def exampleEnv (status : Int) (data : Data) (results : Nat → Except String String) : Env where
  getenv := exampleGetenv
  buildInfo := none
  httpGet := fun _ => .ok ⟨status, .ok [115]⟩
  yamlUnmarshal := fun _ => .ok data
  newClient := fun _ => .ok ()
  jsonMarshal := exampleMarshal
  publishResult := fun i _ => results i

/-- The catalog of the spec's scenario. -/
def scenarioCatalog : Data :=
  ⟨[⟨"", "", "https://a/oidc", "https://a/jwks"⟩, ⟨"b", "", "", ""⟩]⟩

/-- A catalog whose one service names the same URL in both fields. -/
def sharedCatalog : Data :=
  ⟨[⟨"a", "A", "https://a/keys", "https://a/keys"⟩]⟩

/-- Every publish is acknowledged, with the position as message id. -/
def allAcked (i : Nat) : Except String String := .ok (toString i)

/-- The publish of the first target fails, the others are acknowledged. -/
def firstFails (i : Nat) : Except String String :=
  if i = 0 then .error "deadline exceeded" else .ok (toString i)

/-! ## Extraction -/

theorem extractURLs_foldl (services : List Service) (acc : List String) :
    services.foldl
      (fun urls service =>
        let urls :=
          if service.OpenIDConfiguration ≠ "" then urls ++ [service.OpenIDConfiguration]
          else urls
        if service.JWKSURI ≠ "" then urls ++ [service.JWKSURI] else urls)
      acc = acc ++ services.flatMap serviceURLs := by
  induction services generalizing acc with
  | nil => simp
  | cons s rest ih =>
    rw [List.foldl_cons, ih]
    by_cases h1 : s.OpenIDConfiguration = "" <;> by_cases h2 : s.JWKSURI = "" <;>
      simp [serviceURLs, h1, h2]

theorem extractURLs_eq (services : List Service) :
    extractURLs services = services.flatMap serviceURLs := by
  simpa [extractURLs] using extractURLs_foldl services []

theorem extractURLs_append (xs ys : List Service) :
    extractURLs (xs ++ ys) = extractURLs xs ++ extractURLs ys := by
  simp [extractURLs_eq]

theorem mem_extractURLs_ne (services : List Service) (u : String)
    (h : u ∈ extractURLs services) : u ≠ "" := by
  rw [extractURLs_eq] at h
  obtain ⟨s, -, hs⟩ := List.mem_flatMap.mp h
  unfold serviceURLs at hs
  by_cases h1 : s.OpenIDConfiguration = "" <;> by_cases h2 : s.JWKSURI = "" <;>
    simp [h1, h2] at hs
  · subst hs; exact h2
  · subst hs; exact h1
  · rcases hs with hs | hs <;> subst hs <;> assumption

theorem length_extractURLs (services : List Service) :
    (extractURLs services).length =
      services.countP (fun s => s.OpenIDConfiguration ≠ "") +
        services.countP (fun s => s.JWKSURI ≠ "") := by
  rw [extractURLs_eq]
  induction services with
  | nil => simp
  | cons s rest ih =>
    rw [List.flatMap_cons, List.length_append, ih, List.countP_cons, List.countP_cons]
    by_cases h1 : s.OpenIDConfiguration = "" <;> by_cases h2 : s.JWKSURI = "" <;>
      simp [serviceURLs, h1, h2] <;> omega

theorem count_extractURLs (services : List Service) (u : String) (hu : u ≠ "") :
    (extractURLs services).count u = fieldCount u services := by
  rw [extractURLs_eq]
  induction services with
  | nil => simp [fieldCount]
  | cons s rest ih =>
    have hu1 : ¬ "" = u := fun h => hu h.symm
    rw [List.flatMap_cons, List.count_append, ih]
    simp only [fieldCount, List.map_cons, List.sum_cons, serviceURLs]
    by_cases h1 : s.OpenIDConfiguration = "" <;> by_cases h2 : s.JWKSURI = "" <;>
      by_cases h3 : s.OpenIDConfiguration = u <;> by_cases h4 : s.JWKSURI = u <;>
      simp_all [List.count_cons]

/-! ## The publishing loop -/

theorem publishLoop_eq (env : Env) (urls : List String) (i : Nat) (w : World) :
    publishLoop env i urls w =
      ⟨w.log ++ loopLog env i urls, w.trace ++ urls.flatMap (targetCalls env)⟩ := by
  induction urls generalizing i w with
  | nil => simp [publishLoop, loopLog]
  | cons url rest ih =>
    unfold publishLoop
    simp only [List.flatMap_cons, loopLog, targetLog, targetCalls]
    cases hm : env.jsonMarshal ⟨url⟩ with
    | error err => simp [ih, World.call, World.logPrintf]
    | ok msgData =>
      cases hp : env.publishResult i ⟨msgData⟩ with
      | error err => simp [ih, World.call, World.logPrintf, hp]
      | ok id => simp [ih, World.call, World.logPrintf, hp]

theorem length_loopLog (env : Env) (urls : List String) (i : Nat) :
    (loopLog env i urls).length = urls.length := by
  induction urls generalizing i with
  | nil => rfl
  | cons url rest ih => simp [loopLog, ih]

theorem getElem?_loopLog (env : Env) (urls : List String) (i j : Nat) (h : j < urls.length) :
    (loopLog env i urls)[j]? = some (targetLog env (i + j) (urls.get ⟨j, h⟩)) := by
  induction urls generalizing i j with
  | nil => simp at h
  | cons url rest ih =>
    cases j with
    | zero => simp [loopLog]
    | succ k =>
      have hk : k < rest.length := by simpa using h
      simp only [loopLog, List.getElem?_cons_succ, List.get_cons_succ]
      rw [ih (i + 1) k hk]
      congr 2
      omega

theorem attemptedURLs_append (xs ys : List Event) :
    attemptedURLs (xs ++ ys) = attemptedURLs xs ++ attemptedURLs ys := by
  simp [attemptedURLs]

theorem constructedRequests_append (xs ys : List Event) :
    constructedRequests (xs ++ ys) = constructedRequests xs ++ constructedRequests ys := by
  simp [constructedRequests]

theorem attemptedURLs_targets (env : Env) (urls : List String)
    (hm : ∀ u ∈ urls, ∃ d, env.jsonMarshal ⟨u⟩ = .ok d) :
    attemptedURLs (urls.flatMap (targetCalls env)) = urls := by
  induction urls with
  | nil => rfl
  | cons url rest ih =>
    obtain ⟨d, hd⟩ := hm url (List.mem_cons_self _ _)
    rw [List.flatMap_cons, attemptedURLs_append,
      ih fun u hu => hm u (List.mem_cons_of_mem _ hu)]
    simp [targetCalls, hd, attemptedURLs]

theorem attemptedURLs_targets_subset (env : Env) (urls : List String) :
    ∀ u ∈ attemptedURLs (urls.flatMap (targetCalls env)), u ∈ urls := by
  induction urls with
  | nil => simp [attemptedURLs]
  | cons url rest ih =>
    intro u hu
    rw [List.flatMap_cons, attemptedURLs_append, List.mem_append] at hu
    rcases hu with hu | hu
    · cases hd : env.jsonMarshal ⟨url⟩ <;> simp [targetCalls, hd, attemptedURLs] at hu
      simp [hu]
    · exact List.mem_cons_of_mem _ (ih u hu)

theorem constructedRequests_targets (env : Env) (urls : List String) :
    constructedRequests (urls.flatMap (targetCalls env)) = urls.map CrawlRequest.mk := by
  induction urls with
  | nil => rfl
  | cons url rest ih =>
    rw [List.flatMap_cons, constructedRequests_append, ih]
    cases hd : env.jsonMarshal ⟨url⟩ <;> simp [targetCalls, hd, constructedRequests]

theorem publishCrawlRequests_created (env : Env) (projectID topicName : String)
    (urls : List String) (w : World) (hc : env.newClient projectID = .ok ()) :
    publishCrawlRequests env projectID topicName urls w =
      (none, ⟨w.log ++ loopLog env 0 urls,
        w.trace ++ [.newClient projectID, .topic topicName] ++
          urls.flatMap (targetCalls env) ++ [.topicStop, .clientClose]⟩) := by
  simp [publishCrawlRequests, hc, publishLoop_eq, World.call]

theorem publishCrawlRequests_failed (env : Env) (projectID topicName : String)
    (urls : List String) (w : World) (err : String) (hc : env.newClient projectID = .error err) :
    publishCrawlRequests env projectID topicName urls w =
      (some ("failed to create Pub/Sub client: " ++ err),
        ⟨w.log, w.trace ++ [.newClient projectID]⟩) := by
  simp [publishCrawlRequests, hc, World.call]

/-! ## The catalog loader -/

theorem fetch_not_ok (env : Env) (url : String) (w : World) (resp : Response)
    (hget : env.httpGet url = .ok resp) (hs : resp.StatusCode ≠ StatusOK) :
    fetchAndParseYAML env url w =
      (.error (statusCodeError resp.StatusCode), ⟨w.log, w.trace ++ [.httpGet url, .bodyClose]⟩) := by
  simp [fetchAndParseYAML, hget, hs, World.call]

theorem fetch_loaded (env : Env) (url : String) (w : World) (resp : Response)
    (body : List UInt8) (data : Data)
    (hget : env.httpGet url = .ok resp) (hs : resp.StatusCode = StatusOK)
    (hb : resp.Body = .ok body) (hy : env.yamlUnmarshal body = .ok data) :
    fetchAndParseYAML env url w =
      (.ok data,
        ⟨w.log, w.trace ++ [.httpGet url, .readAll, .yamlUnmarshal body, .bodyClose]⟩) := by
  simp [fetchAndParseYAML, hget, hs, hb, hy, World.call]

/-- Whatever the loader returns, it logs nothing, constructs no request and
publishes nothing; when it returns a catalog, the catalog loads. -/
theorem fetch_cases (env : Env) (url : String) (w : World) :
    ∃ calls, (fetchAndParseYAML env url w).2 = ⟨w.log, w.trace ++ calls⟩ ∧
      calls.head? = some (.httpGet url) ∧
      attemptedURLs calls = [] ∧ constructedRequests calls = [] ∧
      ∀ data, (fetchAndParseYAML env url w).1 = .ok data →
        ∃ resp body, env.httpGet url = .ok resp ∧ resp.StatusCode = StatusOK ∧
          resp.Body = .ok body ∧ env.yamlUnmarshal body = .ok data := by
  unfold fetchAndParseYAML
  cases hget : env.httpGet url with
  | error err => exact ⟨[.httpGet url], by simp [World.call, attemptedURLs, constructedRequests]⟩
  | ok resp =>
    by_cases hs : resp.StatusCode = StatusOK
    · cases hb : resp.Body with
      | error err =>
        exact ⟨[.httpGet url, .readAll, .bodyClose],
          by simp [World.call, attemptedURLs, constructedRequests, hs, hb]⟩
      | ok body =>
        cases hy : env.yamlUnmarshal body with
        | error err =>
          exact ⟨[.httpGet url, .readAll, .yamlUnmarshal body, .bodyClose],
            by simp [World.call, attemptedURLs, constructedRequests, hs, hb, hy]⟩
        | ok data =>
          refine ⟨[.httpGet url, .readAll, .yamlUnmarshal body, .bodyClose], ?_⟩
          simp only [World.call, attemptedURLs, constructedRequests, hs, hb, hy]
          simp
          exact ⟨hs, body, hb, hy⟩
    · exact ⟨[.httpGet url, .bodyClose],
        by simp [World.call, attemptedURLs, constructedRequests, hs]⟩

/-! ## The whole run -/

theorem main_missing (env : Env) (Version : String)
    (h : env.getenv "YAML_CATALOG_URL" = "" ∨ env.getenv "GCP_PROJECT_ID" = "" ∨
      env.getenv "PUBSUB_TOPIC_NAME" = "") :
    main env Version = (1, ⟨[.version (resolveVersion env Version), .missingEnv], []⟩) := by
  simp [main, h, World.logPrintf]

theorem main_loaded (env : Env) (Version : String) (body : List UInt8) (data : Data)
    (hl : CatalogLoads env body data) (hc : ClientCreated env) :
    main env Version =
      (0, ⟨.version (resolveVersion env Version) :: loopLog env 0 (extractURLs data.Services),
        [.httpGet (env.getenv "YAML_CATALOG_URL"), .readAll, .yamlUnmarshal body, .bodyClose,
          .newClient (env.getenv "GCP_PROJECT_ID"), .topic (env.getenv "PUBSUB_TOPIC_NAME")] ++
          (extractURLs data.Services).flatMap (targetCalls env) ++
          [.topicStop, .clientClose]⟩) := by
  obtain ⟨h1, h2, h3, ⟨resp, hget, hs, hb⟩, hy⟩ := hl
  unfold main
  simp only [h1, h2, h3, or_self, if_false]
  rw [fetch_loaded env _ _ resp body data hget hs hb hy]
  simp only []
  rw [publishCrawlRequests_created env _ _ _ _ hc]
  simp [World.logPrintf]

/-- A run that constructs a request or publishes has loaded the catalog and
created the client. -/
theorem main_cases (env : Env) (Version : String) :
    (constructedRequests (main env Version).2.trace = [] ∧
        attemptedURLs (main env Version).2.trace = []) ∨
      ∃ body data, CatalogLoads env body data ∧ ClientCreated env := by
  by_cases h : env.getenv "YAML_CATALOG_URL" = "" ∨ env.getenv "GCP_PROJECT_ID" = "" ∨
      env.getenv "PUBSUB_TOPIC_NAME" = ""
  · left
    rw [main_missing env Version h]
    exact ⟨rfl, rfl⟩
  · obtain ⟨calls, hw, -, ha, hr, hok⟩ := fetch_cases env (env.getenv "YAML_CATALOG_URL")
      ((World.mk [] []).logPrintf (.version (resolveVersion env Version)))
    unfold main
    simp only [h, if_false]
    revert hw hok
    generalize fetchAndParseYAML env (env.getenv "YAML_CATALOG_URL")
      ((World.mk [] []).logPrintf (.version (resolveVersion env Version))) = r
    rcases r with ⟨_ | data, w1⟩
    · intro hw _
      left
      simp only at hw
      subst hw
      simp [World.logPrintf, ha, hr, attemptedURLs_append, constructedRequests_append]
    · intro hw hok
      simp only at hw
      subst hw
      obtain ⟨resp, body, hget, hs, hb, hy⟩ := hok data rfl
      simp only [not_or] at h
      cases hc : env.newClient (env.getenv "GCP_PROJECT_ID") with
      | error err =>
        left
        simp only []
        rw [publishCrawlRequests_failed env _ _ _ _ err hc]
        simp only [World.logPrintf, List.nil_append, attemptedURLs_append,
          constructedRequests_append, ha, hr]
        exact ⟨rfl, rfl⟩
      | ok u =>
        right
        exact ⟨body, data, ⟨h.1, h.2.1, h.2.2, ⟨resp, hget, hs, hb⟩, hy⟩, hc⟩

theorem getElem?_log_created (env : Env) (projectID topicName : String) (urls : List String)
    (w : World) (hc : env.newClient projectID = .ok ()) (i : Nat) (h : i < urls.length) :
    (publishCrawlRequests env projectID topicName urls w).2.log[w.log.length + i]? =
      some (targetLog env i (urls.get ⟨i, h⟩)) := by
  rw [publishCrawlRequests_created env _ _ _ _ hc]
  simp only []
  rw [List.getElem?_append_right (Nat.le_add_right _ _), Nat.add_sub_cancel_left,
    getElem?_loopLog env urls 0 i h, Nat.zero_add]

theorem targetLog_isFailure (env : Env) (i : Nat) (url : String) :
    (targetLog env i url).isFailure = true ↔
      (∃ err, env.jsonMarshal ⟨url⟩ = .error err) ∨
        ∃ d err, env.jsonMarshal ⟨url⟩ = .ok d ∧ env.publishResult i ⟨d⟩ = .error err := by
  unfold targetLog
  cases hm : env.jsonMarshal ⟨url⟩ with
  | error err => simp [LogEntry.isFailure]
  | ok d =>
    cases hp : env.publishResult i ⟨d⟩ with
    | error err => simp [LogEntry.isFailure, hp]
    | ok id => simp [LogEntry.isFailure, hp]

theorem targetLog_isSuccess (env : Env) (i : Nat) (url : String) :
    (targetLog env i url).isSuccess = true ↔
      ∃ d id, env.jsonMarshal ⟨url⟩ = .ok d ∧ env.publishResult i ⟨d⟩ = .ok id := by
  unfold targetLog
  cases hm : env.jsonMarshal ⟨url⟩ with
  | error err => simp [LogEntry.isSuccess]
  | ok d =>
    cases hp : env.publishResult i ⟨d⟩ with
    | error err => simp [LogEntry.isSuccess, hp]
    | ok id => simp [LogEntry.isSuccess, hp]

theorem targetLog_failure_or_success (env : Env) (i : Nat) (url : String) :
    (targetLog env i url).isFailure = !(targetLog env i url).isSuccess := by
  unfold targetLog
  cases env.jsonMarshal ⟨url⟩ with
  | error err => rfl
  | ok d =>
    cases hp : env.publishResult i ⟨d⟩ with
    | error err => simp [hp, LogEntry.isFailure, LogEntry.isSuccess]
    | ok id => simp [hp, LogEntry.isFailure, LogEntry.isSuccess]

theorem loopLog_counts (env : Env) (urls : List String) (i : Nat) :
    (loopLog env i urls).countP LogEntry.isFailure +
      (loopLog env i urls).countP LogEntry.isSuccess = urls.length := by
  induction urls generalizing i with
  | nil => rfl
  | cons url rest ih =>
    have h := ih (i + 1)
    have hx := targetLog_failure_or_success env i url
    simp only [loopLog, List.countP_cons, List.length_cons]
    cases hs : (targetLog env i url).isSuccess <;> simp [hs] at hx <;> simp [hs, hx] <;> omega

theorem mem_loopLog_kind (env : Env) (urls : List String) (i : Nat) (e : LogEntry)
    (h : e ∈ loopLog env i urls) : e.isFailure = true ∨ e.isSuccess = true := by
  induction urls generalizing i with
  | nil => simp [loopLog] at h
  | cons url rest ih =>
    simp only [loopLog, List.mem_cons] at h
    rcases h with h | h
    · subst h
      have hx := targetLog_failure_or_success env i url
      cases hs : (targetLog env i url).isSuccess <;> simp [hs] at hx <;> simp [hx]
    · exact ih (i + 1) h

theorem missingEnv_not_mem_loopLog (env : Env) (urls : List String) (i : Nat) :
    LogEntry.missingEnv ∉ loopLog env i urls := by
  intro h
  have := mem_loopLog_kind env urls i _ h
  simp [LogEntry.isFailure, LogEntry.isSuccess] at this

/-! ## Properties of the extraction -/

/-- C1: the URL list built by the loop of lines 66-75 is the concatenation, over
the services in catalog order, of the OpenID configuration URL when it is
non-empty followed by the JWKS URI when it is non-empty.  A service with both
fields empty contributes nothing wherever it stands, no services give the empty
list, and the catalog of the scenario gives `["https://a/oidc", "https://a/jwks"]`. -/
theorem extractURLs_concatenation (services : List Service) :
    extractURLs services = services.flatMap serviceURLs ∧
      (∀ (before after : List Service) (s : Service),
        s.OpenIDConfiguration = "" → s.JWKSURI = "" →
          extractURLs (before ++ s :: after) = extractURLs before ++ extractURLs after) ∧
      extractURLs [] = [] ∧
      extractURLs [⟨"", "", "https://a/oidc", "https://a/jwks"⟩, ⟨"b", "", "", ""⟩] =
        ["https://a/oidc", "https://a/jwks"] := by
  refine ⟨extractURLs_eq services, ?_, rfl, by decide⟩
  intro before after s h1 h2
  simp [extractURLs_eq, serviceURLs, h1, h2]

/-- C7: the length of the extracted URL list is the number of non-empty
`openid-configuration` fields plus the number of non-empty `jwks_uri` fields
over all services, and so is at most twice the number of services. -/
theorem extractURLs_length (services : List Service) :
    (extractURLs services).length =
        services.countP (fun s => s.OpenIDConfiguration ≠ "") +
          services.countP (fun s => s.JWKSURI ≠ "") ∧
      (extractURLs services).length ≤ 2 * services.length := by
  refine ⟨length_extractURLs services, ?_⟩
  rw [length_extractURLs]
  have h1 := List.countP_le_length (fun s : Service => decide (s.OpenIDConfiguration ≠ ""))
    (l := services)
  have h2 := List.countP_le_length (fun s : Service => decide (s.JWKSURI ≠ "")) (l := services)
  omega

/-- C8: every element of the extracted URL list is a non-empty string, and in
every run every request that is constructed and every URL for which a publish
is attempted is a non-empty string. -/
theorem no_empty_target (services : List Service) (env : Env) (Version : String) :
    (∀ u ∈ extractURLs services, u ≠ "") ∧
      (∀ req ∈ constructedRequests (main env Version).2.trace, req.URL ≠ "") ∧
      (∀ u ∈ attemptedURLs (main env Version).2.trace, u ≠ "") ∧
      (∀ url msg, Event.publish url msg ∈ (main env Version).2.trace → url ≠ "") := by
  have key : (∀ req ∈ constructedRequests (main env Version).2.trace, req.URL ≠ "") ∧
      (∀ u ∈ attemptedURLs (main env Version).2.trace, u ≠ "") := by
    rcases main_cases env Version with ⟨h1, h2⟩ | ⟨body, data, hl, hc⟩
    · rw [h1, h2]; simp
    · rw [main_loaded env Version body data hl hc]
      simp only [attemptedURLs_append, constructedRequests_append,
        constructedRequests_targets]
      constructor
      · intro req hreq
        simp [constructedRequests] at hreq
        obtain ⟨u, hu, rfl⟩ := hreq
        exact mem_extractURLs_ne _ _ hu
      · intro u hu
        simp only [attemptedURLs, List.filterMap_cons, List.filterMap_nil, List.nil_append,
          List.append_nil] at hu
        exact mem_extractURLs_ne _ _ (attemptedURLs_targets_subset env _ u hu)
  refine ⟨mem_extractURLs_ne services, key.1, key.2, ?_⟩
  intro url msg hmem
  apply key.2
  unfold attemptedURLs
  exact List.mem_filterMap.mpr ⟨_, hmem, rfl⟩

/-! ## Properties of the configuration check -/

/-- C9: the run ends in the fatal configuration error, with exit status 1 and
no library call made, exactly when one of the three variables is the empty
string; when all three are non-empty the first call of the run is the fetch of
the catalog and the configuration error is not logged. -/
theorem missing_configuration_iff (env : Env) (Version : String) :
    (main env Version = (1, ⟨[.version (resolveVersion env Version), .missingEnv], []⟩) ↔
        (env.getenv "YAML_CATALOG_URL" = "" ∨ env.getenv "GCP_PROJECT_ID" = "" ∨
          env.getenv "PUBSUB_TOPIC_NAME" = "")) ∧
      (env.getenv "YAML_CATALOG_URL" ≠ "" ∧ env.getenv "GCP_PROJECT_ID" ≠ "" ∧
          env.getenv "PUBSUB_TOPIC_NAME" ≠ "" →
        (main env Version).2.trace.head? = some (.httpGet (env.getenv "YAML_CATALOG_URL")) ∧
          LogEntry.missingEnv ∉ (main env Version).2.log) := by
  have set : env.getenv "YAML_CATALOG_URL" ≠ "" ∧ env.getenv "GCP_PROJECT_ID" ≠ "" ∧
      env.getenv "PUBSUB_TOPIC_NAME" ≠ "" →
      (main env Version).2.trace.head? = some (.httpGet (env.getenv "YAML_CATALOG_URL")) ∧
        LogEntry.missingEnv ∉ (main env Version).2.log := by
    rintro ⟨h1, h2, h3⟩
    obtain ⟨calls, hw, hhead, -, -, -⟩ := fetch_cases env (env.getenv "YAML_CATALOG_URL")
      ((World.mk [] []).logPrintf (.version (resolveVersion env Version)))
    unfold main
    simp only [h1, h2, h3, or_self, if_false]
    revert hw
    generalize fetchAndParseYAML env (env.getenv "YAML_CATALOG_URL")
      ((World.mk [] []).logPrintf (.version (resolveVersion env Version))) = r
    rcases r with ⟨_ | data, w1⟩
    · intro hw
      simp only at hw
      subst hw
      simpa [World.logPrintf] using hhead
    · intro hw
      simp only at hw
      subst hw
      cases calls with
      | nil => simp at hhead
      | cons c rest =>
        simp only [List.head?_cons, Option.some.injEq] at hhead
        subst hhead
        cases hc : env.newClient (env.getenv "GCP_PROJECT_ID") with
        | error err =>
          simp only []
          rw [publishCrawlRequests_failed env _ _ _ _ err hc]
          simp [World.logPrintf]
        | ok _ =>
          simp only []
          rw [publishCrawlRequests_created env _ _ _ _ hc]
          simp [World.logPrintf, missingEnv_not_mem_loopLog]
  refine ⟨⟨?_, main_missing env Version⟩, set⟩
  intro hmain
  by_contra hne
  simp only [not_or] at hne
  have := (set ⟨hne.1, hne.2.1, hne.2.2⟩).1
  rw [hmain] at this
  simp at this

/-! ## Properties of the publisher -/

/-- C2: once the client exists, and with every request serialized (the
per-target outcomes being a publish acknowledged or a publish failed), the URLs
for which a publish is attempted are exactly the input list, in order, whatever
the publish results are.  The line recorded for the target at position `i` is
the failure or success line of its own publish result, and it is the same in
any other environment that gives this target the same publish result, whatever
the results of the other targets. -/
theorem publish_attempts_every_target (env : Env) (projectID topicName : String)
    (urls : List String) (w : World)
    (hc : env.newClient projectID = .ok ())
    (hm : ∀ u ∈ urls, ∃ d, env.jsonMarshal ⟨u⟩ = .ok d) :
    attemptedURLs (publishCrawlRequests env projectID topicName urls w).2.trace =
        attemptedURLs w.trace ++ urls ∧
      (∀ (i : Nat) (h : i < urls.length), ∃ d,
        env.jsonMarshal ⟨urls.get ⟨i, h⟩⟩ = .ok d ∧
          (publishCrawlRequests env projectID topicName urls w).2.log[w.log.length + i]? =
            some (match env.publishResult i ⟨d⟩ with
              | .error err => .publishFailed (urls.get ⟨i, h⟩) err
              | .ok id => .published (urls.get ⟨i, h⟩) id)) ∧
      (∀ other : Env, other.jsonMarshal = env.jsonMarshal →
        other.newClient projectID = .ok () →
        ∀ i, i < urls.length → other.publishResult i = env.publishResult i →
          (publishCrawlRequests other projectID topicName urls w).2.log[w.log.length + i]? =
            (publishCrawlRequests env projectID topicName urls w).2.log[w.log.length + i]?) := by
  refine ⟨?_, ?_, ?_⟩
  · rw [publishCrawlRequests_created env _ _ _ _ hc]
    simp only [attemptedURLs_append, attemptedURLs_targets env urls hm]
    simp [attemptedURLs]
  · intro i h
    obtain ⟨d, hd⟩ := hm _ (List.get_mem urls i h)
    refine ⟨d, hd, ?_⟩
    rw [getElem?_log_created env _ _ _ _ hc i h]
    simp only [targetLog, hd]
  · intro other hj hoc i h hp
    rw [getElem?_log_created env _ _ _ _ hc i h, getElem?_log_created other _ _ _ _ hoc i h]
    simp only [targetLog, hj, hp]

/-- Witness for C2: the first of two publishes fails and the second is still
attempted and acknowledged. -/
theorem publish_attempts_every_target_witness :
    attemptedURLs
        (publishCrawlRequests (exampleEnv 200 scenarioCatalog firstFails) "project" "crawl"
          ["https://a/oidc", "https://a/jwks"] ⟨[], []⟩).2.trace =
        [] ++ ["https://a/oidc", "https://a/jwks"] ∧
      (publishCrawlRequests (exampleEnv 200 scenarioCatalog firstFails) "project" "crawl"
          ["https://a/oidc", "https://a/jwks"] ⟨[], []⟩).2.log =
        [.publishFailed "https://a/oidc" "deadline exceeded",
          .published "https://a/jwks" "1"] :=
  ⟨(publish_attempts_every_target (exampleEnv 200 scenarioCatalog firstFails) "project" "crawl"
    ["https://a/oidc", "https://a/jwks"] ⟨[], []⟩ rfl
    (fun _ _ => ⟨_, rfl⟩)).1, by decide⟩

/-- C3: `publishCrawlRequests` returns a non-nil error exactly when creating the
client fails; once the client exists it returns nil for every list of URLs and
every serialization and publish result, and a run that has loaded the catalog
then exits with status 0 without logging a fatal line. -/
theorem publishCrawlRequests_error_iff (env : Env) (projectID topicName : String)
    (urls : List String) (w : World) :
    ((publishCrawlRequests env projectID topicName urls w).1 ≠ none ↔
        ∃ err, env.newClient projectID = .error err) ∧
      (env.newClient projectID = .ok () →
        (publishCrawlRequests env projectID topicName urls w).1 = none) ∧
      (∀ (Version : String) (body : List UInt8) (data : Data),
        CatalogLoads env body data → ClientCreated env →
          (main env Version).1 = 0 ∧
            ∀ err, LogEntry.publishRequestsFailed err ∉ (main env Version).2.log) := by
  refine ⟨?_, ?_, ?_⟩
  · cases hc : env.newClient projectID with
    | error err => simp [publishCrawlRequests_failed env _ _ _ _ err hc]
    | ok _ => simp [publishCrawlRequests_created env _ _ _ _ hc]
  · intro hc
    rw [publishCrawlRequests_created env _ _ _ _ hc]
  · intro Version body data hl hc
    rw [main_loaded env Version body data hl hc]
    refine ⟨rfl, ?_⟩
    intro err hmem
    simp only [List.mem_cons] at hmem
    rcases hmem with hmem | hmem
    · cases hmem
    · have := mem_loopLog_kind env _ 0 _ hmem
      simp [LogEntry.isFailure, LogEntry.isSuccess] at this

/-- Witness for C3: every publish fails and the run exits with status 0. -/
theorem publishCrawlRequests_error_iff_witness :
    (main (exampleEnv 200 scenarioCatalog (fun _ => .error "unavailable")) "dev").1 = 0 :=
  ((publishCrawlRequests_error_iff (exampleEnv 200 scenarioCatalog (fun _ => .error "unavailable"))
    "project" "crawl" [] ⟨[], []⟩).2.2 "dev" [115] scenarioCatalog
    ⟨by decide, by decide, by decide, ⟨_, rfl, rfl, rfl⟩, rfl⟩ rfl).1

/-! ## Properties of the catalog loader -/

/-- C5: when the variables are set and the catalog request is answered with a
status outside 200-299, whatever the body, `fetchAndParseYAML` returns the
error whose text ends in the received status code, and the run logs it as fatal
and exits with status 1 after the calls `http.Get` and `Body.Close` only: the
body is not decoded, no request is constructed and no publish is attempted. -/
theorem non_success_status_aborts (env : Env) (Version : String) (resp : Response)
    (hcfg : env.getenv "YAML_CATALOG_URL" ≠ "" ∧ env.getenv "GCP_PROJECT_ID" ≠ "" ∧
      env.getenv "PUBSUB_TOPIC_NAME" ≠ "")
    (hget : env.httpGet (env.getenv "YAML_CATALOG_URL") = .ok resp)
    (hs : ¬ (200 ≤ resp.StatusCode ∧ resp.StatusCode < 300)) :
    (∀ w, (fetchAndParseYAML env (env.getenv "YAML_CATALOG_URL") w).1 =
        .error ("failed to fetch YAML: status code " ++ toString resp.StatusCode)) ∧
      main env Version =
        (1, ⟨[.version (resolveVersion env Version),
              .loadFailed ("failed to fetch YAML: status code " ++ toString resp.StatusCode)],
            [.httpGet (env.getenv "YAML_CATALOG_URL"), .bodyClose]⟩) ∧
      attemptedURLs (main env Version).2.trace = [] ∧
      constructedRequests (main env Version).2.trace = [] := by
  have hne : resp.StatusCode ≠ StatusOK := by
    intro h
    apply hs
    rw [h]
    decide
  have hmain : main env Version =
      (1, ⟨[.version (resolveVersion env Version),
            .loadFailed ("failed to fetch YAML: status code " ++ toString resp.StatusCode)],
          [.httpGet (env.getenv "YAML_CATALOG_URL"), .bodyClose]⟩) := by
    obtain ⟨h1, h2, h3⟩ := hcfg
    unfold main
    simp only [h1, h2, h3, or_self, if_false]
    rw [fetch_not_ok env _ _ resp hget hne]
    simp [World.logPrintf, statusCodeError]
  refine ⟨?_, hmain, ?_, ?_⟩
  · intro w
    rw [fetch_not_ok env _ w resp hget hne]
    rfl
  · rw [hmain]; rfl
  · rw [hmain]; rfl

/-- Witness for C5: the catalog request is answered with status 503. -/
theorem non_success_status_aborts_witness :
    main (exampleEnv 503 scenarioCatalog allAcked) "dev" =
      (1, ⟨[.version "dev", .loadFailed "failed to fetch YAML: status code 503"],
          [.httpGet "https://catalog.example/jwks.yaml", .bodyClose]⟩) :=
  (non_success_status_aborts (exampleEnv 503 scenarioCatalog allAcked) "dev"
    ⟨503, .ok [115]⟩ ⟨by decide, by decide, by decide⟩ rfl (by decide)).2.1

/-- C10: `fetchAndParseYAML` accepts exactly status 200.  For every other
status, 201 and 204 included, it returns the status-code error after the calls
`http.Get` and `Body.Close` only, the body neither read nor decoded.  With
status 200 the body is read, and when reading succeeds it is decoded and the
result is the decoded catalog or the decoding error. -/
theorem fetch_accepts_exactly_200 (env : Env) (url : String) (w : World) (resp : Response)
    (hget : env.httpGet url = .ok resp) :
    (resp.StatusCode ≠ 200 →
        fetchAndParseYAML env url w =
          (.error ("failed to fetch YAML: status code " ++ toString resp.StatusCode),
            ⟨w.log, w.trace ++ [.httpGet url, .bodyClose]⟩)) ∧
      (resp.StatusCode = 200 →
        (∀ err, resp.Body = .error err →
          fetchAndParseYAML env url w =
            (.error ("failed to read YAML content: " ++ err),
              ⟨w.log, w.trace ++ [.httpGet url, .readAll, .bodyClose]⟩)) ∧
        (∀ body, resp.Body = .ok body →
          fetchAndParseYAML env url w =
            (match env.yamlUnmarshal body with
              | .error err => .error ("failed to parse YAML: " ++ err)
              | .ok config => .ok config,
              ⟨w.log, w.trace ++ [.httpGet url, .readAll, .yamlUnmarshal body, .bodyClose]⟩))) := by
  refine ⟨?_, ?_⟩
  · intro hs
    rw [fetch_not_ok env url w resp hget hs]
    rfl
  · intro hs
    have hs2 : resp.StatusCode = StatusOK := hs
    refine ⟨?_, ?_⟩
    · intro err hb
      simp [fetchAndParseYAML, hget, hs2, hb, World.call]
    · intro body hb
      cases hy : env.yamlUnmarshal body with
      | error err => simp [fetchAndParseYAML, hget, hs2, hb, hy, World.call]
      | ok config => simp [fetchAndParseYAML, hget, hs2, hb, hy, World.call]

/-- Witness for C10: status 204 is refused without reading the body. -/
theorem fetch_accepts_exactly_200_witness :
    fetchAndParseYAML (exampleEnv 204 scenarioCatalog allAcked) "https://catalog.example/jwks.yaml"
        ⟨[], []⟩ =
      (.error "failed to fetch YAML: status code 204",
        ⟨[], [.httpGet "https://catalog.example/jwks.yaml", .bodyClose]⟩) :=
  (fetch_accepts_exactly_200 (exampleEnv 204 scenarioCatalog allAcked)
    "https://catalog.example/jwks.yaml" ⟨[], []⟩ ⟨204, .ok [115]⟩ rfl).1 (by decide)

/-! ## Properties of the whole run -/

/-- Counterexample to C4: a catalog whose one service names `https://a/keys` in
both fields loads, the client is created, and the run submits that URL twice. -/
theorem shared_url_published_twice :
    CatalogLoads (exampleEnv 200 sharedCatalog allAcked) [115] sharedCatalog ∧
      attemptedURLs (main (exampleEnv 200 sharedCatalog allAcked) "dev").2.trace =
        ["https://a/keys", "https://a/keys"] ∧
      ¬ (attemptedURLs (main (exampleEnv 200 sharedCatalog allAcked) "dev").2.trace).Nodup :=
  ⟨⟨by decide, by decide, by decide, ⟨_, rfl, rfl, rfl⟩, rfl⟩, by decide, by decide⟩

/-- C4, amended: in a run that loads the catalog, creates the client and
serializes every request, the URLs submitted to the topic are exactly the
extracted list, so a non-empty URL is submitted as many times as it is the value
of an `openid-configuration` or `jwks_uri` field of the catalog; no URL is
submitted twice exactly when no non-empty URL is the value of two fields. -/
theorem submitted_once_per_field (env : Env) (Version : String) (body : List UInt8)
    (data : Data) (hl : CatalogLoads env body data) (hc : ClientCreated env)
    (hm : ∀ u ∈ extractURLs data.Services, ∃ d, env.jsonMarshal ⟨u⟩ = .ok d) :
    attemptedURLs (main env Version).2.trace = extractURLs data.Services ∧
      (∀ u, u ≠ "" →
        (attemptedURLs (main env Version).2.trace).count u = fieldCount u data.Services) ∧
      ((attemptedURLs (main env Version).2.trace).Nodup ↔
        ∀ u, u ≠ "" → fieldCount u data.Services ≤ 1) := by
  have heq : attemptedURLs (main env Version).2.trace = extractURLs data.Services := by
    rw [main_loaded env Version body data hl hc]
    simp only [attemptedURLs_append, attemptedURLs_targets env _ hm]
    simp [attemptedURLs]
  refine ⟨heq, ?_, ?_⟩
  · intro u hu
    rw [heq, count_extractURLs _ u hu]
  · rw [heq, List.nodup_iff_count_le_one]
    constructor
    · intro h u hu
      rw [← count_extractURLs _ u hu]
      exact h u
    · intro h u
      by_cases hu : u = ""
      · have hnot : u ∉ extractURLs data.Services := fun hmem =>
          mem_extractURLs_ne _ u hmem hu
        rw [List.count_eq_zero_of_not_mem hnot]
        exact Nat.zero_le _
      · rw [count_extractURLs _ u hu]
        exact h u hu

/-- Witness for C4, amended: the scenario's catalog, whose two URLs differ. -/
theorem submitted_once_per_field_witness :
    attemptedURLs (main (exampleEnv 200 scenarioCatalog allAcked) "dev").2.trace =
      extractURLs scenarioCatalog.Services :=
  (submitted_once_per_field (exampleEnv 200 scenarioCatalog allAcked) "dev" [115]
    scenarioCatalog ⟨by decide, by decide, by decide, ⟨_, rfl, rfl, rfl⟩, rfl⟩ rfl
    (fun _ _ => ⟨_, rfl⟩)).1

/-- Counterexample to C6: two runs over the same two targets, one with both
publishes acknowledged and one with the first publish failed, end with the same
line, the success line of the second target, so the last line gives no tally;
and the run over a catalog without services logs the version line only. -/
theorem last_line_is_not_a_tally :
    ((main (exampleEnv 200 scenarioCatalog allAcked) "dev").2.log.map LogEntry.render =
        ["JWKS Catalog Crawler version: dev",
          "Published crawl request for https://a/oidc with message ID: 0",
          "Published crawl request for https://a/jwks with message ID: 1"]) ∧
      ((main (exampleEnv 200 scenarioCatalog firstFails) "dev").2.log.map LogEntry.render =
        ["JWKS Catalog Crawler version: dev",
          "Failed to publish message for URL https://a/oidc: deadline exceeded",
          "Published crawl request for https://a/jwks with message ID: 1"]) ∧
      (main (exampleEnv 200 scenarioCatalog allAcked) "dev").2.log.getLast? =
        (main (exampleEnv 200 scenarioCatalog firstFails) "dev").2.log.getLast? ∧
      (main (exampleEnv 200 scenarioCatalog allAcked) "dev").2.log.countP LogEntry.isSuccess = 2 ∧
      (main (exampleEnv 200 scenarioCatalog firstFails) "dev").2.log.countP LogEntry.isSuccess = 1 ∧
      (main (exampleEnv 200 ⟨[]⟩ allAcked) "dev") =
        (0, ⟨[.version "dev"],
          [.httpGet "https://catalog.example/jwks.yaml", .readAll, .yamlUnmarshal [115],
            .bodyClose, .newClient "project", .topic "crawl", .topicStop, .clientClose]⟩) :=
  ⟨by decide, by decide, by decide, by decide, by decide, by decide⟩

/-- C6, amended: in a run that loads the catalog and creates the client, the log
is the version line followed by exactly one line per target, in target order:
a failure line for each target whose serialization or publish failed, a success
line for each target whose publish was acknowledged.  Failure and success lines
together number the targets, and the log ends with the line of the last target,
or with the version line when there is no target; no tally line is written. -/
theorem log_one_line_per_target (env : Env) (Version : String) (body : List UInt8)
    (data : Data) (hl : CatalogLoads env body data) (hc : ClientCreated env) :
    (main env Version).2.log.length = (extractURLs data.Services).length + 1 ∧
      (main env Version).2.log[0]? = some (.version (resolveVersion env Version)) ∧
      (∀ (i : Nat) (h : i < (extractURLs data.Services).length),
        (main env Version).2.log[i + 1]? =
          some (targetLog env i ((extractURLs data.Services).get ⟨i, h⟩))) ∧
      (∀ i url, (targetLog env i url).isFailure = true ↔
        (∃ err, env.jsonMarshal ⟨url⟩ = .error err) ∨
          ∃ d err, env.jsonMarshal ⟨url⟩ = .ok d ∧ env.publishResult i ⟨d⟩ = .error err) ∧
      (∀ i url, (targetLog env i url).isSuccess = true ↔
        ∃ d id, env.jsonMarshal ⟨url⟩ = .ok d ∧ env.publishResult i ⟨d⟩ = .ok id) ∧
      (main env Version).2.log.countP LogEntry.isFailure +
          (main env Version).2.log.countP LogEntry.isSuccess =
        (extractURLs data.Services).length ∧
      (main env Version).2.log.getLast? =
        some (match (extractURLs data.Services).getLast? with
          | none => .version (resolveVersion env Version)
          | some url => targetLog env ((extractURLs data.Services).length - 1) url) := by
  rw [main_loaded env Version body data hl hc]
  refine ⟨by simp [length_loopLog], by simp, ?_, targetLog_isFailure env,
    targetLog_isSuccess env, ?_, ?_⟩
  · intro i h
    simp only [List.getElem?_cons_succ]
    rw [getElem?_loopLog env _ 0 i h, Nat.zero_add]
  · have := loopLog_counts env (extractURLs data.Services) 0
    simpa [List.countP_cons, LogEntry.isFailure, LogEntry.isSuccess] using this
  · generalize extractURLs data.Services = urls
    rcases List.eq_nil_or_concat urls with h | ⟨front, last, h⟩
    · subst h; rfl
    · rw [List.concat_eq_append] at h
      subst h
      have hlen : front.length < (front ++ [last]).length := by simp
      have hget := getElem?_loopLog env (front ++ [last]) 0 front.length hlen
      have hl2 : (loopLog env 0 (front ++ [last])).length = front.length + 1 := by
        simp [length_loopLog]
      rw [List.getLast?_eq_getElem?]
      simp only [List.length_cons, hl2, Nat.add_sub_cancel, List.getElem?_cons_succ, hget,
        List.getLast?_concat, List.length_append, List.length_singleton]
      simp

/-- Witness for C6, amended: the first of the scenario's two publishes fails. -/
theorem log_one_line_per_target_witness :
    (main (exampleEnv 200 scenarioCatalog firstFails) "dev").2.log.length =
      (extractURLs scenarioCatalog.Services).length + 1 :=
  (log_one_line_per_target (exampleEnv 200 scenarioCatalog firstFails) "dev" [115]
    scenarioCatalog ⟨by decide, by decide, by decide, ⟨_, rfl, rfl, rfl⟩, rfl⟩ rfl).1

end JwksCrawler
